import Mathlib

/-!
Shallow embedding of the aghpb-tui terminal client (src/main.rs,
src/stateful_list.rs, src/layout.rs) and proofs about its specification.

Modelling conventions:
- Rust machine integers (`u16`, `usize`) are modelled as `Nat`; the one place
  where `usize` subtraction can wrap is made explicit through `wrapSub`
  (release-profile wrapping semantics; a debug build panics at the same
  inputs, which is noted where relevant).
- Code that can panic (`unwrap`, `Vec` indexing, `unreachable!`) is modelled
  in `Except String`, the error carrying the panic message.
- External collaborators (network calls of the `aghpb` crate, the filesystem,
  the terminal probe, the ratatui rendering backend) are passed in as
  parameters holding their results, matching the spec, which treats them as
  opaque services.
- Floating point: the image-sizing arithmetic in `view` uses `f32`. All
  operands are `u16` values, hence exactly representable; the model performs
  the same computation in exact arithmetic, written with integer ceil/floor
  divisions. At the concrete inputs evaluated below the `f32` computation is
  exact, so the two agree there.
-/

namespace AghpbTui

/-- Modulus of Rust `usize` on a 64-bit target. -/
def usizeSize : Nat := 2 ^ 64

/-- Wrapping subtraction on `usize` values below `usizeSize` (this is the
release-profile semantics of Rust `a - b`; a debug build panics on the same
underflow). -/
def wrapSub (a b : Nat) : Nat := if b ≤ a then a - b else a + usizeSize - b

/-- Embeds `StatefulList` (src/stateful_list.rs lines 3-7). Of the ratatui
`ListState` only the selection is relevant to the program, so `state` is
modelled by its selected index. -/
structure StatefulList where
  selected : Option Nat
  items : List String
deriving DecidableEq, Repr

/-- Rust `StatefulList::default()`: `ListState::default()` has no selection
and `Vec::default()` is empty. -/
instance : Inhabited StatefulList := ⟨⟨none, []⟩⟩

/-- Embeds `StatefulList::with_items` (src/stateful_list.rs lines 10-15).
Note that the selection is set to index 0 whether or not `items` is empty. -/
def StatefulList.with_items (items : List String) : StatefulList :=
  { selected := some 0, items := items }

/-- Embeds `StatefulList::next` (src/stateful_list.rs lines 26-38). The
comparison is against `self.items.len() - 1`, a `usize` subtraction, hence
`wrapSub`. -/
def StatefulList.next (l : StatefulList) : StatefulList :=
  let i := match l.selected with
    | some i => if i ≥ wrapSub l.items.length 1 then 0 else i + 1
    | none => 0
  { l with selected := some i }

/-- Embeds `StatefulList::previous` (src/stateful_list.rs lines 40-52).
`self.items.len() - 1` is again a `usize` subtraction. -/
def StatefulList.previous (l : StatefulList) : StatefulList :=
  let i := match l.selected with
    | some i => if i = 0 then wrapSub l.items.length 1 else i - 1
    | none => 0
  { l with selected := some i }

/-- The selection invariant of spec section 3: the selection is `Some` of an
index in range `[0, len)`. -/
def SelInv (l : StatefulList) : Prop :=
  ∃ i, l.selected = some i ∧ i < l.items.length

/-- Embeds `RunningState` (src/main.rs lines 37-46). -/
inductive RunningState where
  | Loading
  | BrowsingCategories
  | BrowsingImages
  | Searching
  | ShowingDownloadPopup
  | Exit
deriving DecidableEq, Repr

instance : Inhabited RunningState := ⟨RunningState.Loading⟩

/-- Embeds `ratatui_image::picker::ProtocolType` as far as the program
distinguishes it: the code only ever compares against `Halfblocks` and
assigns `Sixel`. -/
inductive ProtocolType where
  | Halfblocks
  | Sixel
  | Kitty
  | ITerm2
deriving DecidableEq, Repr

/-- Embeds `Image` (src/main.rs lines 48-57). The field `state`, the opaque
renderer handle `Box<dyn StatefulProtocol>`, carries no observable data the
program branches on and is omitted; `data : Bytes` is a byte list. -/
structure Image where
  name : String
  data : List Nat
  protocol : ProtocolType
  height : Nat
  width : Nat
deriving DecidableEq, Repr

/-- Embeds the record handles returned by the `aghpb` catalog service
(`aghpb::BookData`); the program reads only the `name` field of the handle
(src/main.rs lines 302, 338, 343). -/
structure BookData where
  name : String
deriving DecidableEq, Repr

instance : DecidableRel (fun x y : BookData => x.name ≤ y.name) :=
  fun x y => inferInstanceAs (Decidable (x.name ≤ y.name))

/-- Embeds the `crossterm` key codes the program matches on; every other key
is collapsed into `Other`, which every Rust wildcard arm covers. -/
inductive KeyCode where
  | Up
  | Down
  | Left
  | Right
  | Enter
  | Char (c : Char)
  | Other
deriving DecidableEq, Repr

/-- Embeds `Message` (src/main.rs lines 59-75). `HandleSearchInput` carries
the key, `ShowImageList` the category name, `ShowImage` the loaded image. -/
inductive Message where
  | LoadCategories
  | LoadImage
  | BrowseCategories
  | Exit
  | MoveUpCategories
  | MoveDownCategories
  | MoveUpImages
  | MoveDownImages
  | ShowImage (img : Image)
  | DownloadImage
  | ShowImageList (category : String)
  | DismissDownloadPrompt
  | Search
  | HandleSearchInput (key : KeyCode)
  | ShowSearchResults
deriving DecidableEq, Repr

/-- Embeds `App` (src/main.rs lines 77-89) with the `Default` derive values.
The `search_input` buffer is modelled by its text value; the `tasks` join set
is the external task pool, whose drain step is modelled separately by
`join_task_unwrap`. -/
structure App where
  running_state : RunningState := RunningState.Loading
  previous_running_state : RunningState := RunningState.Loading
  categories : StatefulList := default
  image : Option Image := none
  images : List BookData := []
  images_list : StatefulList := default
  shown_at_least_one_image : Bool := false
  search_input : String := ""
deriving Repr

/-- Embeds the `KeyCode::Right | KeyCode::Enter` arm of the
`BrowsingCategories` branch of `handle_key` (src/main.rs lines 450-452):
`app.categories.items[app.categories.state.selected().unwrap()].clone()`.
Both the `Option` unwrap and the `Vec` index are modelled as potential
panics. -/
def select_category (app : App) : Except String (Option Message) :=
  match app.categories.selected with
  | none => Except.error "called Option unwrap on a None value"
  | some i =>
      match app.categories.items[i]? with
      | none => Except.error "index out of bounds"
      | some c => Except.ok (some (Message.ShowImageList c))

/-- Embeds `handle_key` (src/main.rs lines 438-471). The function is pure in
the source; the `Except` layer records the panic reachable through
`select_category`. -/
def handle_key (app : App) (key : KeyCode) : Except String (Option Message) :=
  match app.running_state with
  | RunningState.Searching =>
      if key = KeyCode.Enter ∧ app.search_input ≠ "" then
        Except.ok (some Message.ShowSearchResults)
      else
        Except.ok (some (Message.HandleSearchInput key))
  | RunningState.BrowsingCategories =>
      match key with
      | KeyCode.Up => Except.ok (some Message.MoveUpCategories)
      | KeyCode.Down => Except.ok (some Message.MoveDownCategories)
      | KeyCode.Right => select_category app
      | KeyCode.Enter => select_category app
      | KeyCode.Char c =>
          if c = 'q' then Except.ok (some Message.Exit)
          else if c = 's' ∨ c = '/' then Except.ok (some Message.Search)
          else if c = 'd' ∧ app.image.isSome then
            Except.ok (some Message.DownloadImage)
          else Except.ok none
      | _ => Except.ok none
  | RunningState.BrowsingImages =>
      match key with
      | KeyCode.Char c =>
          if c = 'q' then Except.ok (some Message.Exit)
          else if c = 's' ∨ c = '/' then Except.ok (some Message.Search)
          else if c = 'd' ∧ app.image.isSome then
            Except.ok (some Message.DownloadImage)
          else Except.ok none
      | KeyCode.Up => Except.ok (some Message.MoveUpImages)
      | KeyCode.Down => Except.ok (some Message.MoveDownImages)
      | KeyCode.Left => Except.ok (some Message.BrowseCategories)
      | KeyCode.Right => Except.ok (some Message.LoadImage)
      | KeyCode.Enter => Except.ok (some Message.LoadImage)
      | _ => Except.ok none
  | RunningState.ShowingDownloadPopup =>
      Except.ok (some Message.DismissDownloadPrompt)
  | RunningState.Exit => Except.ok none
  | RunningState.Loading => Except.ok none

/-- Embeds the `Message::DismissDownloadPrompt` arm of `update`
(src/main.rs lines 274-276). -/
def update_dismiss_download_prompt (a : App) : App :=
  { a with running_state := a.previous_running_state }

/-- Embeds the `Message::Search` arm of `update` (src/main.rs lines 280-282). -/
def update_search (a : App) : App :=
  { a with running_state := RunningState.Searching }

/-- Embeds the `Message::Exit` arm of `update` (src/main.rs lines 304-306). -/
def update_exit (a : App) : App :=
  { a with running_state := RunningState.Exit }

/-- Embeds the `Message::BrowseCategories` arm of `update`
(src/main.rs lines 307-309). -/
def update_browse_categories (a : App) : App :=
  { a with running_state := RunningState.BrowsingCategories }

/-- Embeds the `Message::LoadCategories` arm of `update`
(src/main.rs lines 310-319). The network call `aghpb::categories()` is
external: its successful result is the parameter (the arm unwraps its
`Result`, aborting the process on network failure, per spec section 7 a
design weakness of the inline calls and out of scope here); the list is then
sorted and installed. `sort_unstable` on strings is modelled by a sort on the
same order. -/
def update_load_categories (a : App) (fetched : List String) : App :=
  let categories := fetched.insertionSort (· ≤ ·)
  { a with categories := StatefulList.with_items categories,
           running_state := RunningState.BrowsingCategories }

/-- Embeds the `Message::MoveUpCategories` arm of `update` (src/main.rs
line 320). -/
def update_move_up_categories (a : App) : App :=
  { a with categories := a.categories.previous }

/-- Embeds the `Message::MoveDownCategories` arm of `update` (src/main.rs
line 322). -/
def update_move_down_categories (a : App) : App :=
  { a with categories := a.categories.next }

/-- Embeds the `Message::MoveUpImages` arm of `update` (src/main.rs
line 321). -/
def update_move_up_images (a : App) : App :=
  { a with images_list := a.images_list.previous }

/-- Embeds the `Message::MoveDownImages` arm of `update` (src/main.rs
line 323). -/
def update_move_down_images (a : App) : App :=
  { a with images_list := a.images_list.next }

/-- Embeds the `Message::ShowSearchResults` arm of `update`
(src/main.rs lines 283-303). The network call `aghpb::search` is external:
its successful result is the parameter (the arm unwraps, aborting on network
failure). The arm does not sort: the API returns the list pre-sorted. -/
def update_show_search_results (a : App) (fetched : List BookData) : App :=
  { a with running_state := RunningState.BrowsingImages,
           images := fetched,
           images_list :=
             StatefulList.with_items (fetched.map BookData.name) }

/-- Embeds the `Message::ShowImageList` arm of `update`
(src/main.rs lines 324-344). The fetched list is sorted by record name
(`sort_by_cached_key`, a stable sort by the name key, modelled by a stable
sort on the same key order). -/
def update_show_image_list (a : App) (fetched : List BookData) : App :=
  let images := fetched.insertionSort (fun x y => x.name ≤ y.name)
  { a with running_state := RunningState.BrowsingImages,
           images := images,
           images_list :=
             StatefulList.with_items (images.map BookData.name) }

/-- Embeds the synchronous part of the `Message::LoadImage` arm of `update`
(src/main.rs lines 345-355): clear the current image, set the
shown-at-least-one-image flag, unwrap the selection of `images_list` and
index `app.images` with it (both modelled as potential panics). The indexed
record, which the source hands to the spawned background task, is returned
alongside the new state; the task body itself is `load_image_task`. -/
def update_load_image (a : App) : Except String (App × BookData) :=
  let a1 := { a with image := none, shown_at_least_one_image := true }
  match a1.images_list.selected with
  | none => Except.error "called Option unwrap on a None value"
  | some i =>
      match a1.images[i]? with
      | none => Except.error "index out of bounds"
      | some book => Except.ok (a1, book)

/-- Embeds the `Message::ShowImage` arm of `update`
(src/main.rs lines 402-404). -/
def update_show_image (a : App) (img : Image) : App :=
  { a with image := some img }

/-- Embeds the `Message::DownloadImage` arm of `update`
(src/main.rs lines 405-421). The download-directory lookup and the
filesystem write are external effects (their own unwraps abort the process
on filesystem failure and are outside every claim); with no image loaded the
arm executes `unreachable!`, a panic. On success the arm saves the current
running state and enters the popup state. -/
def update_download_image (a : App) : Except String App :=
  match a.image with
  | none => Except.error "internal error: entered unreachable code: no image to download"
  | some _ =>
      Except.ok { a with previous_running_state := a.running_state,
                         running_state := RunningState.ShowingDownloadPopup }

/-- Errors produced inside the spawned fetch task (src/main.rs lines
356-366): the book-data fetch failure (wrapped with the connectivity
suggestion) and the image decode failure. -/
inductive TaskError where
  | NetworkError (cause : String)
  | DecodeError (cause : String)
deriving DecidableEq, Repr

/-- Dimensions reported by the external image decoder
(`image::load_from_memory` followed by `height()` and `width()`). -/
structure ImageMeta where
  height : Nat
  width : Nat
deriving DecidableEq, Repr

/-- Embeds the record metadata returned by `get_book()`
(src/main.rs lines 357, 362, 390): the display name and the raw bytes. -/
structure FetchedBook where
  name : String
  raw_bytes : List Nat
deriving DecidableEq, Repr

/-- Embeds the body of the background task spawned by the `LoadImage` arm
(src/main.rs lines 355-400). The remote fetch and the decoder are external:
their outcomes are parameters; the terminal capability probe
(`Picker::from_termios`, `guess_protocol`, and the xterm override) is
collapsed into the `protocol` parameter. Each failure is propagated by `?`
into the `Err` of the returned `Result` — a value, never a panic inside the
task; on success the task yields `Message::ShowImage`. -/
def load_image_task (book_result : Except String FetchedBook)
    (decode_result : List Nat → Except String ImageMeta)
    (protocol : ProtocolType) : Except TaskError Message :=
  match book_result with
  | Except.error e => Except.error (TaskError.NetworkError e)
  | Except.ok book =>
      match decode_result book.raw_bytes with
      | Except.error e => Except.error (TaskError.DecodeError e)
      | Except.ok meta =>
          Except.ok (Message.ShowImage
            { name := book.name,
              data := book.raw_bytes,
              protocol := protocol,
              height := meta.height,
              width := meta.width })

/-- Embeds the task-drain step of the outer loop (src/main.rs lines 494-496):
`while let Some(msg) = app.tasks.try_join_next() { update(app, msg.unwrap().unwrap()) }`.
The joined value is a `Result` (join outcome) of a `Result` (the task's own
outcome); both `unwrap` calls panic on an `Err` value, before `update` ever
runs. -/
def join_task_unwrap (m : Except String (Except TaskError Message)) :
    Except String Message :=
  match m with
  | Except.error _ => Except.error "called Result unwrap on an Err value: JoinError"
  | Except.ok (Except.error _) => Except.error "called Result unwrap on an Err value"
  | Except.ok (Except.ok msg) => Except.ok msg

/-- Embeds a ratatui `Rect` (u16 fields). -/
structure Rect where
  x : Nat
  y : Nat
  width : Nat
  height : Nat
deriving DecidableEq, Repr

/-- Ceiling division on naturals, the exact-arithmetic counterpart of a
rounded-up quotient. -/
def ceilDiv (a b : Nat) : Nat := (a + b - 1) / b

/-- Saturation of the `as u16` cast applied to the rounded `f32` value. -/
def u16sat (n : Nat) : Nat := min n 65535

/-- Embeds `Layout::vertical([Constraint::Length(len)]).flex(Flex::Center).split(area)`
(src/main.rs lines 214-216): the single segment keeps the full width, is
clamped to the available height, and the remaining vertical slack is split
evenly before and after (an odd slack leaves the extra cell on one side). -/
def flex_center_vertical (area : Rect) (len : Nat) : Rect :=
  let h := min len area.height
  let slack := area.height - h
  { x := area.x, y := area.y + slack / 2, width := area.width, height := h }

/-- Embeds `Layout::horizontal([Constraint::Length(len)]).flex(Flex::Center).split(area)`
(src/main.rs lines 230-232). -/
def flex_center_horizontal (area : Rect) (len : Nat) : Rect :=
  let w := min len area.width
  let slack := area.width - w
  { x := area.x + slack / 2, y := area.y, width := w, height := area.height }

/-- Embeds the image sizing of `view` (src/main.rs lines 203-233). The `f32`
expressions are computed in exact arithmetic:
`(aw * (ih / iw) / 2.0).ceil` is `ceilDiv (aw * ih) (2 * iw)`,
`(aw * (ih / iw) / 2.15).floor` is `(20 * (aw * ih)) / (43 * iw)`,
`(ah * (iw / ih) * 2.0).ceil` is `ceilDiv (2 * (ah * iw)) ih`, and
`(ah * (iw / ih) * 2.15).ceil` is `ceilDiv (43 * (ah * iw)) (20 * ih)`;
the `as u16` cast saturates. -/
def image_layout (area : Rect) (img : Image) : Rect :=
  if img.height < img.width then
    let len := if img.protocol = ProtocolType.Halfblocks
      then ceilDiv (area.width * img.height) (2 * img.width)
      else (20 * (area.width * img.height)) / (43 * img.width)
    flex_center_vertical area (u16sat len)
  else
    let len := if img.protocol = ProtocolType.Halfblocks
      then ceilDiv (2 * (area.height * img.width)) img.height
      else ceilDiv (43 * (area.height * img.width)) (20 * img.height)
    flex_center_horizontal area (u16sat len)

/-- Embeds `centered_text` (src/layout.rs lines 11-21). The padding count is
`(f32::from(height) / 2f32) as usize - usize::from(height % 2 == 0) - num_of_lines`:
the float half of a `u16` truncated to `usize` is exactly `height / 2`, and
the two subtractions are checked `usize` subtractions, modelled as `none`
(panic) on underflow. -/
def centered_text (text : List String) (height : Nat) : Option String :=
  let num_of_lines := text.length
  let joined := String.intercalate "\n" text
  let half := height / 2
  let even_correction := if height % 2 = 0 then 1 else 0
  if half < even_correction then none
  else if half - even_correction < num_of_lines then none
  else some (String.join (List.replicate (half - even_correction - num_of_lines) "\n") ++ joined)

/-- The image-list synchronisation invariant: the display list shows exactly
the names of the records, in order, and for a non-empty record list the
selection is an in-range index. -/
def ImagesInv (a : App) : Prop :=
  a.images_list.items = a.images.map BookData.name ∧
  (a.images ≠ [] → ∃ i, a.images_list.selected = some i ∧ i < a.images.length)

/-- The containment and centering contract of the image sizing (spec section
4.3 and the testable property of section 8): the resulting rectangle lies
inside `area`; a landscape image keeps the full width and is vertically
centered with slack split to within one cell; a portrait or square image
keeps the full height and is horizontally centered likewise. -/
def ImageLayoutSpec (area : Rect) (img : Image) : Prop :=
  let r := image_layout area img
  (area.x ≤ r.x ∧ r.x + r.width ≤ area.x + area.width ∧
   area.y ≤ r.y ∧ r.y + r.height ≤ area.y + area.height) ∧
  (img.height < img.width →
    r.x = area.x ∧ r.width = area.width ∧
    r.y - area.y ≤ (area.y + area.height - (r.y + r.height)) + 1 ∧
    area.y + area.height - (r.y + r.height) ≤ (r.y - area.y) + 1) ∧
  (img.width ≤ img.height →
    r.y = area.y ∧ r.height = area.height ∧
    r.x - area.x ≤ (area.x + area.width - (r.x + r.width)) + 1 ∧
    area.x + area.width - (r.x + r.width) ≤ (r.x - area.x) + 1)

/-! Helper lemmas about the list cursor. -/

theorem wrapSub_of_ne_zero {n : Nat} (h : n ≠ 0) : wrapSub n 1 = n - 1 := by
  unfold wrapSub
  rw [if_pos (by omega)]

theorem StatefulList.next_items (l : StatefulList) : l.next.items = l.items := rfl

theorem StatefulList.previous_items (l : StatefulList) : l.previous.items = l.items := rfl

theorem StatefulList.next_selected (l : StatefulList) (i : Nat)
    (hs : l.selected = some i) (hi : i < l.items.length) :
    l.next.selected = some ((i + 1) % l.items.length) := by
  have hlen : l.items.length ≠ 0 := by omega
  simp only [StatefulList.next, hs, wrapSub_of_ne_zero hlen]
  split
  · have h1 : i + 1 = l.items.length := by omega
    rw [h1, Nat.mod_self]
  · rw [Nat.mod_eq_of_lt (by omega)]

theorem StatefulList.previous_selected (l : StatefulList) (i : Nat)
    (hs : l.selected = some i) (hi : i < l.items.length) :
    l.previous.selected = some ((i + (l.items.length - 1)) % l.items.length) := by
  have hlen : l.items.length ≠ 0 := by omega
  simp only [StatefulList.previous, hs, wrapSub_of_ne_zero hlen]
  split
  · rename_i h0
    rw [h0, Nat.zero_add, Nat.mod_eq_of_lt (by omega)]
  · rename_i h0
    have h1 : i + (l.items.length - 1) = (i - 1) + l.items.length := by omega
    rw [h1, Nat.add_mod_right, Nat.mod_eq_of_lt (by omega)]

theorem StatefulList.next_iterate (k : Nat) (l : StatefulList) (i : Nat)
    (hs : l.selected = some i) (hi : i < l.items.length) :
    (StatefulList.next^[k] l).selected = some ((i + k) % l.items.length) ∧
    (StatefulList.next^[k] l).items = l.items := by
  induction k generalizing l i with
  | zero => simpa [hs] using (Nat.mod_eq_of_lt hi).symm
  | succ k ih =>
      rw [Function.iterate_succ_apply]
      have hlen : l.items.length ≠ 0 := by omega
      have h1 : l.next.selected = some ((i + 1) % l.items.length) :=
        StatefulList.next_selected l i hs hi
      have hm : (i + 1) % l.items.length < l.items.length :=
        Nat.mod_lt _ (Nat.pos_of_ne_zero hlen)
      obtain ⟨ha, hb⟩ := ih l.next ((i + 1) % l.items.length) h1 hm
      rw [StatefulList.next_items] at ha hb
      refine ⟨?_, hb⟩
      rw [ha, Nat.mod_add_mod]
      congr 2
      omega

theorem StatefulList.previous_iterate (k : Nat) (l : StatefulList) (i : Nat)
    (hs : l.selected = some i) (hi : i < l.items.length) :
    (StatefulList.previous^[k] l).selected =
      some ((i + k * (l.items.length - 1)) % l.items.length) ∧
    (StatefulList.previous^[k] l).items = l.items := by
  induction k generalizing l i with
  | zero => simpa [hs] using (Nat.mod_eq_of_lt hi).symm
  | succ k ih =>
      rw [Function.iterate_succ_apply]
      have hlen : l.items.length ≠ 0 := by omega
      have h1 : l.previous.selected = some ((i + (l.items.length - 1)) % l.items.length) :=
        StatefulList.previous_selected l i hs hi
      have hm : (i + (l.items.length - 1)) % l.items.length < l.items.length :=
        Nat.mod_lt _ (Nat.pos_of_ne_zero hlen)
      obtain ⟨ha, hb⟩ := ih l.previous ((i + (l.items.length - 1)) % l.items.length) h1 hm
      rw [StatefulList.previous_items] at ha hb
      refine ⟨?_, hb⟩
      rw [ha, Nat.mod_add_mod]
      congr 2
      rw [Nat.succ_mul]
      omega

/-- C3 counterexample: for the empty item list the claim fails at the code.
`with_items []` selects index 0 rather than no selection, and `next` and
`previous` on the resulting list change the selection, so they are not
no-ops. -/
theorem empty_list_claim_counterexample :
    ¬ ((StatefulList.with_items []).selected = none ∧
       (StatefulList.with_items []).next.selected = (StatefulList.with_items []).selected ∧
       (StatefulList.with_items []).previous.selected = (StatefulList.with_items []).selected) := by
  decide

/-- C3 (amended): for the empty item list `with_items` yields selection
`some 0` (not none), and navigation is not a no-op: `next` moves the
selection to `some 1` and `previous` moves it to `some (2 ^ 64 - 1)`, the
wraparound of the `usize` expression `items.len() - 1` (a debug build panics
on the same underflow instead). -/
theorem empty_list_navigation_behaviour :
    (StatefulList.with_items []).selected = some 0 ∧
    (StatefulList.with_items []).next.selected = some 1 ∧
    (StatefulList.with_items []).previous.selected = some (2 ^ 64 - 1) := by
  refine ⟨rfl, ?_, ?_⟩ <;> decide

/-- C7: for every list with a non-empty item sequence whose selection is an
index in range, applying `next` exactly `len` times returns the selection to
its starting index, and likewise applying `previous` exactly `len` times
returns the selection to its starting index. -/
theorem cursor_cycles_after_len_steps (l : StatefulList) (i : Nat)
    (hs : l.selected = some i) (hi : i < l.items.length) :
    (StatefulList.next^[l.items.length] l).selected = some i ∧
    (StatefulList.previous^[l.items.length] l).selected = some i := by
  constructor
  · rw [(StatefulList.next_iterate l.items.length l i hs hi).1,
      Nat.add_mod_right, Nat.mod_eq_of_lt hi]
  · rw [(StatefulList.previous_iterate l.items.length l i hs hi).1,
      Nat.add_mul_mod_self_left, Nat.mod_eq_of_lt hi]

/-- Witness for C7 at the concrete three-element list with selection 0. -/
theorem cursor_cycles_after_len_steps_witness :
    (StatefulList.next^[(StatefulList.with_items ["a", "b", "c"]).items.length]
        (StatefulList.with_items ["a", "b", "c"])).selected = some 0 ∧
    (StatefulList.previous^[(StatefulList.with_items ["a", "b", "c"]).items.length]
        (StatefulList.with_items ["a", "b", "c"])).selected = some 0 :=
  cursor_cycles_after_len_steps (StatefulList.with_items ["a", "b", "c"]) 0 rfl (by decide)

/-- C8: for every list with a non-empty item sequence the invariant
"the selection is `some i` with `i` in range `[0, len)`" holds after
construction via `with_items`, `next` and `previous` leave the item sequence
unchanged, and both preserve the invariant, so out-of-range selection states
are unreachable from `with_items` through navigation. -/
theorem selection_invariant (l : StatefulList) (hne : l.items ≠ []) :
    SelInv (StatefulList.with_items l.items) ∧
    l.next.items = l.items ∧ l.previous.items = l.items ∧
    (SelInv l → SelInv l.next ∧ SelInv l.previous) := by
  have hlen : 0 < l.items.length := List.length_pos.mpr hne
  refine ⟨⟨0, rfl, hlen⟩, rfl, rfl, ?_⟩
  rintro ⟨i, hs, hi⟩
  constructor
  · exact ⟨(i + 1) % l.items.length,
      StatefulList.next_selected l i hs hi, Nat.mod_lt _ hlen⟩
  · exact ⟨(i + (l.items.length - 1)) % l.items.length,
      StatefulList.previous_selected l i hs hi, Nat.mod_lt _ hlen⟩

/-- Witness for C8 at a concrete two-element list: the invariant holds after
construction and is carried through one `next` step. -/
theorem selection_invariant_witness :
    SelInv (StatefulList.with_items ["x", "y"]).next :=
  ((selection_invariant (StatefulList.with_items ["x", "y"]) (by decide)).2.2.2
    ⟨0, rfl, by decide⟩).1

/-- C1: evaluation of the code at the failing scenario. The background task
converts a decode failure into an `Err` value rather than a message, and the
task-drain step of the outer loop then panics on that value through
`msg.unwrap().unwrap()` before `update` ever runs — the process crashes
instead of processing a failure message. -/
theorem decode_error_task_panics_main_loop :
    load_image_task (Except.ok ⟨"Clean Architecture", [0, 1]⟩)
        (fun _ => Except.error "image cannot be processed from memory")
        ProtocolType.Halfblocks =
      Except.error (TaskError.DecodeError "image cannot be processed from memory") ∧
    join_task_unwrap (Except.ok (load_image_task
        (Except.ok ⟨"Clean Architecture", [0, 1]⟩)
        (fun _ => Except.error "image cannot be processed from memory")
        ProtocolType.Halfblocks)) =
      Except.error "called Result unwrap on an Err value" :=
  ⟨rfl, rfl⟩

/-- C2: evaluation of the code at the failing scenario. In
`BrowsingCategories` with an empty category list (as `with_items []`
produces: selection `some 0`, no items) pressing Enter or Right reaches
`app.categories.items[0]` on an empty vector, an index panic, instead of
being rejected or being a no-op. -/
theorem enter_on_empty_categories_panics :
    handle_key { running_state := RunningState.BrowsingCategories,
                 categories := StatefulList.with_items [] } KeyCode.Enter =
      Except.error "index out of bounds" ∧
    handle_key { running_state := RunningState.BrowsingCategories,
                 categories := StatefulList.with_items [] } KeyCode.Right =
      Except.error "index out of bounds" :=
  ⟨rfl, rfl⟩

/-- C4 counterexample: the claimed precondition `numLines ≤ totalHeight` does
not prevent the underflow. At `totalHeight = 1` and one line of text the
`usize` subtraction underflows (a panic, modelled as `none`). -/
theorem centered_text_underflow_counterexample :
    (["A"] : List String).length ≤ 1 ∧ centered_text ["A"] 1 = none :=
  ⟨by decide, rfl⟩

/-- C4 (amended): `centered_text` is a pure function, hence deterministic,
and it never underflows provided
`numLines + (1 if totalHeight is even else 0) ≤ totalHeight / 2`; under that
precondition it prepends exactly
`totalHeight / 2 - (1 if even) - numLines` blank lines. The claimed
precondition `numLines ≤ totalHeight` is weaker and admits the underflow of
the counterexample. -/
theorem centered_text_no_underflow (text : List String) (h : Nat)
    (hpre : text.length + (if h % 2 = 0 then 1 else 0) ≤ h / 2) :
    centered_text text h =
      some (String.join (List.replicate
            (h / 2 - (if h % 2 = 0 then 1 else 0) - text.length) "\n")
        ++ String.intercalate "\n" text) := by
  by_cases hp : h % 2 = 0
  · simp only [hp, if_true] at hpre ⊢
    simp only [centered_text, hp, if_true]
    split
    · omega
    · split
      · omega
      · rfl
  · simp only [hp, if_false] at hpre ⊢
    simp only [centered_text, hp, if_false]
    split
    · omega
    · split
      · omega
      · rfl

/-- Witness for C4 at the concrete call the program makes: one line of text
centered in the three rows of the loading box. -/
theorem centered_text_no_underflow_witness :
    centered_text ["Loading..."] 3 = some "Loading..." := by
  rw [centered_text_no_underflow ["Loading..."] 3 (by decide)]
  rfl

/-! Helper lemmas about the image layout. -/

theorem flex_center_vertical_spec (area : Rect) (len : Nat) :
    (flex_center_vertical area len).x = area.x ∧
    (flex_center_vertical area len).width = area.width ∧
    area.y ≤ (flex_center_vertical area len).y ∧
    (flex_center_vertical area len).y + (flex_center_vertical area len).height ≤
      area.y + area.height ∧
    (flex_center_vertical area len).y - area.y ≤
      (area.y + area.height -
        ((flex_center_vertical area len).y + (flex_center_vertical area len).height)) + 1 ∧
    area.y + area.height -
        ((flex_center_vertical area len).y + (flex_center_vertical area len).height) ≤
      ((flex_center_vertical area len).y - area.y) + 1 := by
  unfold flex_center_vertical
  dsimp only
  refine ⟨rfl, rfl, ?_, ?_, ?_, ?_⟩ <;> omega

theorem flex_center_horizontal_spec (area : Rect) (len : Nat) :
    (flex_center_horizontal area len).y = area.y ∧
    (flex_center_horizontal area len).height = area.height ∧
    area.x ≤ (flex_center_horizontal area len).x ∧
    (flex_center_horizontal area len).x + (flex_center_horizontal area len).width ≤
      area.x + area.width ∧
    (flex_center_horizontal area len).x - area.x ≤
      (area.x + area.width -
        ((flex_center_horizontal area len).x + (flex_center_horizontal area len).width)) + 1 ∧
    area.x + area.width -
        ((flex_center_horizontal area len).x + (flex_center_horizontal area len).width) ≤
      ((flex_center_horizontal area len).x - area.x) + 1 := by
  unfold flex_center_horizontal
  dsimp only
  refine ⟨rfl, rfl, ?_, ?_, ?_, ?_⟩ <;> omega

theorem image_layout_landscape (area : Rect) (img : Image)
    (hlw : img.height < img.width) :
    ∃ len, image_layout area img = flex_center_vertical area len := by
  unfold image_layout
  rw [if_pos hlw]
  exact ⟨_, rfl⟩

theorem image_layout_portrait (area : Rect) (img : Image)
    (hlw : ¬ img.height < img.width) :
    ∃ len, image_layout area img = flex_center_horizontal area len := by
  unfold image_layout
  rw [if_neg hlw]
  exact ⟨_, rfl⟩

/-- C5: for all positive image pixel dimensions and every available cell
area, the computed rectangle is fully contained in the area; a landscape
image keeps the full container width and is vertically centered with the
leading and trailing slack differing by at most one cell; a portrait or
square image keeps the full container height and is horizontally centered
likewise. -/
theorem image_layout_spec (area : Rect) (img : Image)
    (_hw : 0 < img.width) (_hh : 0 < img.height) : ImageLayoutSpec area img := by
  unfold ImageLayoutSpec
  by_cases hlw : img.height < img.width
  · obtain ⟨len, hL⟩ := image_layout_landscape area img hlw
    rw [hL]
    obtain ⟨h1, h2, h3, h4, h5, h6⟩ := flex_center_vertical_spec area len
    refine ⟨⟨?_, ?_, h3, h4⟩, fun _ => ⟨h1, h2, h5, h6⟩, fun hc => ?_⟩ <;> omega
  · obtain ⟨len, hL⟩ := image_layout_portrait area img hlw
    rw [hL]
    obtain ⟨h1, h2, h3, h4, h5, h6⟩ := flex_center_horizontal_spec area len
    refine ⟨⟨h3, h4, ?_, ?_⟩, fun hc => ?_, fun _ => ⟨h1, h2, h5, h6⟩⟩ <;> omega

/-- Witness for C5 at a concrete landscape image and area. -/
theorem image_layout_spec_witness :
    ImageLayoutSpec ⟨0, 0, 80, 24⟩
      ⟨"Dragon Book", [], ProtocolType.Halfblocks, 900, 1600⟩ :=
  image_layout_spec ⟨0, 0, 80, 24⟩
    ⟨"Dragon Book", [], ProtocolType.Halfblocks, 900, 1600⟩ (by decide) (by decide)

/-- C6: for a landscape image of 1600 by 900 pixels in an 80 by 24 cell area
under the halfblock protocol, the computed rectangle spans the full width of
80 cells and its height is the rounded-up value of 80 * 900 / 1600 / 2.0,
that is 23 cells, within the 24-cell clamp. -/
theorem landscape_halfblocks_example :
    (image_layout ⟨0, 0, 80, 24⟩ ⟨"b", [], ProtocolType.Halfblocks, 900, 1600⟩).width = 80 ∧
    (image_layout ⟨0, 0, 80, 24⟩ ⟨"b", [], ProtocolType.Halfblocks, 900, 1600⟩).height = 23 ∧
    ceilDiv (80 * 900) (2 * 1600) = 23 ∧ 23 ≤ 24 := by
  refine ⟨rfl, rfl, rfl, by decide⟩

/-- C9: triggering a download while an image is loaded saves the running
state `S` active at that moment, switches to `ShowingDownloadPopup`, any key
press in that state produces `DismissDownloadPrompt`, and processing the
dismissal restores the running state to exactly `S`. -/
theorem download_popup_restores_state (a : App) (img : Image)
    (h : a.image = some img) :
    ∃ a', update_download_image a = Except.ok a' ∧
      a'.running_state = RunningState.ShowingDownloadPopup ∧
      (∀ key, handle_key a' key = Except.ok (some Message.DismissDownloadPrompt)) ∧
      (update_dismiss_download_prompt a').running_state = a.running_state := by
  refine ⟨{ a with previous_running_state := a.running_state, running_state := RunningState.ShowingDownloadPopup }, ?_, rfl, ?_, rfl⟩
  · unfold update_download_image
    rw [h]
  · intro key
    rfl

/-- Witness for C9 with a concrete application browsing images. -/
theorem download_popup_restores_state_witness :
    ∃ a', update_download_image
        { running_state := RunningState.BrowsingImages,
          image := some ⟨"b", [], ProtocolType.Halfblocks, 1, 1⟩ } = Except.ok a' ∧
      a'.running_state = RunningState.ShowingDownloadPopup ∧
      (∀ key, handle_key a' key = Except.ok (some Message.DismissDownloadPrompt)) ∧
      (update_dismiss_download_prompt a').running_state = RunningState.BrowsingImages :=
  download_popup_restores_state
    { running_state := RunningState.BrowsingImages,
      image := some ⟨"b", [], ProtocolType.Halfblocks, 1, 1⟩ }
    ⟨"b", [], ProtocolType.Halfblocks, 1, 1⟩ rfl

/-- C10: both updates that rebuild the image collection leave
`images_list.items` equal to the names of `app.images` in order (hence of the
same length) with an in-range selection when non-empty; the image-list moves
preserve that invariant; and under it `LoadImage` with a non-empty record
list succeeds, its unwrapped selected index denoting a valid record of
`app.images`. -/
theorem images_list_matches_images (a : App) (fetched : List BookData) :
    ImagesInv (update_show_image_list a fetched) ∧
    ImagesInv (update_show_search_results a fetched) ∧
    (∀ b : App, ImagesInv b →
      ImagesInv (update_move_up_images b) ∧ ImagesInv (update_move_down_images b)) ∧
    (∀ b : App, ImagesInv b → b.images ≠ [] →
      ∃ b' book i, update_load_image b = Except.ok (b', book) ∧
        b.images_list.selected = some i ∧ b.images[i]? = some book) := by
  refine ⟨⟨rfl, fun hne => ⟨0, rfl, List.length_pos.mpr hne⟩⟩,
    ⟨rfl, fun hne => ⟨0, rfl, List.length_pos.mpr hne⟩⟩, ?_, ?_⟩
  · rintro b ⟨hitems, hsel⟩
    have hlen : b.images_list.items.length = b.images.length := by
      rw [hitems, List.length_map]
    constructor
    · refine ⟨hitems, fun hne => ?_⟩
      obtain ⟨i, hs, hi⟩ := hsel hne
      have hpos : 0 < b.images_list.items.length := by omega
      refine ⟨(i + (b.images_list.items.length - 1)) % b.images_list.items.length,
        StatefulList.previous_selected b.images_list i hs (by omega), ?_⟩
      have h1 := Nat.mod_lt (i + (b.images_list.items.length - 1)) hpos
      have h2 : (update_move_up_images b).images.length = b.images.length := rfl
      omega
    · refine ⟨hitems, fun hne => ?_⟩
      obtain ⟨i, hs, hi⟩ := hsel hne
      have hpos : 0 < b.images_list.items.length := by omega
      refine ⟨(i + 1) % b.images_list.items.length,
        StatefulList.next_selected b.images_list i hs (by omega), ?_⟩
      have h1 := Nat.mod_lt (i + 1) hpos
      have h2 : (update_move_down_images b).images.length = b.images.length := rfl
      omega
  · rintro b ⟨hitems, hsel⟩ hne
    obtain ⟨i, hs, hi⟩ := hsel hne
    refine ⟨{ b with image := none, shown_at_least_one_image := true },
      b.images.get ⟨i, hi⟩, i, ?_, hs, ?_⟩
    · simp only [update_load_image, hs, List.getElem?_eq_getElem hi,
        List.get_eq_getElem]
    · rw [List.getElem?_eq_getElem hi, List.get_eq_getElem]

/-- Witness for C10 at a concrete rebuild from one fetched record followed by
an immediate `LoadImage`. -/
theorem images_list_matches_images_witness :
    ImagesInv (update_show_search_results {} [⟨"b1"⟩]) ∧
    (∃ b' book i,
      update_load_image (update_show_search_results {} [⟨"b1"⟩]) = Except.ok (b', book) ∧
      (update_show_search_results {} [⟨"b1"⟩]).images_list.selected = some i ∧
      (update_show_search_results {} [⟨"b1"⟩]).images[i]? = some book) := by
  have h := images_list_matches_images ({} : App) [⟨"b1"⟩]
  exact ⟨h.2.1, h.2.2.2 _ h.2.1 (List.cons_ne_nil _ _)⟩

end AghpbTui
